import Mathlib

/-!
Verification of the discovery engine of the sentry-terraform-migration-toolkit
repository (`src/sentry_discovery/discovery.py`).

The Python module is shallowly embedded: JSON values are an inductive type,
Python dicts are ordered association lists with unique keys, the request
executor `_make_request` is a function over a script of per-attempt HTTP
outcomes, and the orchestrator `discover_all` is a function over the results
of the traversal fetches.  Exceptions are an explicit error type threaded
through `Except`.
-/

namespace Sentry

/-- JSON values as received from the API.  Objects keep insertion order,
mirroring Python dicts parsed from JSON. -/
inductive JsonV where
  | null
  | bool (b : Bool)
  | num (n : Int)
  | str (s : String)
  | arr (items : List JsonV)
  | obj (entries : List (String × JsonV))

/-- A Python dict with string keys: an ordered association list.  Dicts built
by the interpreter have pairwise-distinct keys. -/
abbrev Dict := List (String × JsonV)

/-- `d.get(k)` as an `Option`: the value at the first matching key. -/
def dictGet? : Dict → String → Option JsonV
  | [], _ => none
  | p :: d, k => if p.1 = k then some p.2 else dictGet? d k

/-- `k in d` for a Python dict. -/
def hasKey : Dict → String → Bool
  | [], _ => false
  | p :: d, k => if p.1 = k then true else hasKey d k

/-- `d[k] = v` on a Python dict: update the existing entry in place,
otherwise append at the end.  This is the effect of each key/value pair when
the interpreter builds a dict literal. -/
def dictInsert : Dict → String → JsonV → Dict
  | [], k, v => [(k, v)]
  | p :: d, k, v => if p.1 = k then (k, v) :: d else p :: dictInsert d k v

/-- `{**d1, **d2}`: start from `d1`, then insert every entry of `d2` in
order, so entries of `d2` win on key collisions. -/
def dictUnion (d1 d2 : Dict) : Dict :=
  d2.foldl (fun acc p => dictInsert acc p.1 p.2) d1

/-- Whether a JSON value is a Python dict. -/
def JsonV.isObj : JsonV → Bool
  | .obj _ => true
  | _ => false

/-- The entries of a JSON object (`[]` on other values; used only after an
`isObj` check or a successful subscript). -/
def JsonV.objEntries : JsonV → Dict
  | .obj d => d
  | _ => []

/-- Python exceptions that appear in the discovery module: the module's own
`SentryAPIError` (message plus optional `status_code` and `response`
attributes, both `None` when the two-argument form is not used), and the
builtin exceptions its code can raise. -/
inductive PyError where
  | sentryAPIError (message : String) (status_code : Option Nat) (response : Option String)
  | valueError (message : String)
  | keyError (key : String)
  | typeError (message : String)
  | attributeError (message : String)
deriving DecidableEq

/-- Outcome of one `self.session.get(url, ...)` call in `_make_request`
(discovery.py line 113): either an HTTP response (status, parsed JSON body,
`response.text`, optional integer `Retry-After` header, reason phrase) or one
of the request exceptions the code handles. -/
inductive Outcome where
  | response (status : Nat) (body : JsonV) (text : String)
      (retryAfterHdr : Option Nat) (reason : String)
  | timeout
  | connError
  | reqException (msg : String)

/-- Whether the attempt produced an HTTP response (as opposed to raising
inside `session.get`). -/
def Outcome.isResponse : Outcome → Bool
  | .response .. => true
  | _ => false

/-- Environment of one loop iteration of `_make_request`: the outcome of its
`session.get` call and the `time.time()` value the iteration would store into
`last_request_time` at line 115 (meaningful only when a response arrives). -/
structure AttemptEnv where
  outcome : Outcome
  t1 : Int

/-- A blocking `time.sleep` performed by the retry logic, in seconds: the
`Retry-After` sleep of the 429 branch (line 128) or the exponential-backoff
sleep of the timeout/connection handlers (lines 143 and 153).  The
inter-request pacing sleep of lines 106-109 affects neither control flow nor
stored state and is not recorded. -/
inductive SleepEvent where
  | retryAfter (secs : Nat)
  | backoff (secs : Nat)
deriving DecidableEq

/-- Observable behaviour of one `_make_request` call: the returned JSON or
raised error, the retry-related sleeps in order, the number of attempts
(loop iterations that called `session.get`), and the successive values
written to `self.last_request_time` at line 115. -/
structure ExecResult where
  result : Except PyError JsonV
  sleeps : List SleepEvent
  attempts : Nat
  timestamps : List Int

/-- `str(requests.exceptions.HTTPError)` as raised by
`response.raise_for_status()` for a 4xx/5xx status. -/
def httpErrorMessage (status : Nat) (reason url : String) : String :=
  if status < 500 then
    toString status ++ " Client Error: " ++ reason ++ " for url: " ++ url
  else
    toString status ++ " Server Error: " ++ reason ++ " for url: " ++ url

/-- Bookkeeping for an iteration whose `session.get` returned a response:
one more attempt, and line 115 stored a new `last_request_time`. -/
def recordResponse (e : AttemptEnv) (r : ExecResult) : ExecResult :=
  { r with attempts := r.attempts + 1, timestamps := e.t1 :: r.timestamps }

/-- Bookkeeping for an iteration whose `session.get` raised: one more
attempt, `last_request_time` untouched (line 115 was skipped). -/
def recordNoResponse (r : ExecResult) : ExecResult :=
  { r with attempts := r.attempts + 1 }

/-- A finished call with no further attempts or sleeps. -/
def pureResult (res : Except PyError JsonV) : ExecResult :=
  ⟨res, [], 0, []⟩

/-- The `for attempt in range(self.retry_attempts + 1)` loop of
`_make_request` (discovery.py lines 103-164).  `fuel` is the number of
remaining loop iterations (`retry_attempts + 1 - i`) and `i` the current
value of `attempt`; `env` supplies each iteration's outcome.  When the loop
falls through (fuel exhausted) the final `SentryAPIError` of lines 162-164
is raised. -/
def makeRequestGo (retry_attempts : Nat) (url : String) (env : Nat → AttemptEnv) :
    Nat → Nat → ExecResult
  | 0, _ =>
      pureResult (.error (.sentryAPIError
        ("Failed to make request after " ++ toString (retry_attempts + 1) ++ " attempts")
        none none))
  | fuel + 1, i =>
      let e := env i
      match e.outcome with
      | .response status body text retryAfterHdr reason =>
          recordResponse e <|
            if status = 200 then pureResult (.ok body)
            else if status = 204 then pureResult (.ok (.obj []))
            else if status = 404 then pureResult (.ok (.obj []))
            else if status = 429 then
              let w := retryAfterHdr.getD 60
              let r := makeRequestGo retry_attempts url env fuel (i + 1)
              { r with sleeps := .retryAfter w :: r.sleeps }
            else if status = 401 ∨ status = 403 then
              pureResult (.error (.sentryAPIError
                ("Authentication failed: " ++ toString status ++ " - " ++ text)
                (some status) (some text)))
            else if 400 ≤ status ∧ status < 600 then
              pureResult (.error (.sentryAPIError
                ("Request failed: " ++ httpErrorMessage status reason url) none none))
            else
              makeRequestGo retry_attempts url env fuel (i + 1)
      | .timeout =>
          if i < retry_attempts then
            let r := makeRequestGo retry_attempts url env fuel (i + 1)
            recordNoResponse { r with sleeps := .backoff (2 ^ i) :: r.sleeps }
          else
            recordNoResponse (pureResult (.error (.sentryAPIError
              ("Request timeout after " ++ toString retry_attempts ++ " retries")
              none none)))
      | .connError =>
          if i < retry_attempts then
            let r := makeRequestGo retry_attempts url env fuel (i + 1)
            recordNoResponse { r with sleeps := .backoff (2 ^ i) :: r.sleeps }
          else
            recordNoResponse (pureResult (.error (.sentryAPIError
              ("Connection error after " ++ toString retry_attempts ++ " retries")
              none none)))
      | .reqException msg =>
          recordNoResponse (pureResult (.error (.sentryAPIError
            ("Request failed: " ++ msg) none none)))

/-- `SentryDiscovery._make_request`: run the retry loop from attempt 0 with
`retry_attempts + 1` iterations available. -/
def make_request (retry_attempts : Nat) (url : String) (env : Nat → AttemptEnv) : ExecResult :=
  makeRequestGo retry_attempts url env (retry_attempts + 1) 0

/-- Python subscript `v[k]`: value at key `k` of a dict, `KeyError` when the
key is absent, `TypeError` when the value is not subscriptable by a string. -/
def pyIndex (v : JsonV) (k : String) : Except PyError JsonV :=
  match v with
  | .obj d =>
      match dictGet? d k with
      | some x => .ok x
      | none => .error (.keyError k)
  | _ => .error (.typeError ("value is not subscriptable with key " ++ k))

/-- Python `v.get(k, dflt)`: defaulting lookup on a dict, `AttributeError`
on a value with no `get` method. -/
def pyGet (v : JsonV) (k : String) (dflt : JsonV) : Except PyError JsonV :=
  match v with
  | .obj d => .ok ((dictGet? d k).getD dflt)
  | _ => .error (.attributeError "get")

/-- The `SentryOrganization` dataclass.  Python does not enforce the field
annotations, so every field holds whatever JSON value the payload carried. -/
structure SentryOrganization where
  id : JsonV
  slug : JsonV
  name : JsonV
  features : JsonV
  status : JsonV
  raw_data : Dict

/-- The `SentryTeam` dataclass. -/
structure SentryTeam where
  id : JsonV
  slug : JsonV
  name : JsonV
  organization : JsonV
  members : JsonV
  projects : JsonV
  raw_data : Dict

/-- The `SentryProject` dataclass. -/
structure SentryProject where
  id : JsonV
  slug : JsonV
  name : JsonV
  organization : JsonV
  platform : JsonV
  teams : JsonV
  status : JsonV
  features : JsonV
  options : JsonV
  raw_data : Dict

/-- Construction of one `SentryOrganization` from a list element
(discovery.py lines 177-184), with key accesses in evaluation order. -/
def mkOrganization (v : JsonV) : Except PyError SentryOrganization := do
  let i ← pyIndex v "id"
  let s ← pyIndex v "slug"
  let n ← pyIndex v "name"
  let f ← pyGet v "features" (.arr [])
  let st ← pyGet v "status" (.obj [])
  .ok ⟨i, s, n, f, st, v.objEntries⟩

/-- The per-element loop of `get_organizations` (lines 176-185); any raised
exception aborts the whole fetch. -/
def orgsGo : List JsonV → Except PyError (List SentryOrganization)
  | [] => .ok []
  | v :: rest => do
      let o ← mkOrganization v
      let os ← orgsGo rest
      .ok (o :: os)

/-- `SentryDiscovery.get_organizations` applied to the JSON returned by
`_make_request` (lines 166-188): soft-empty on a non-list, otherwise one
record per element. -/
def get_organizations (data : JsonV) : Except PyError (List SentryOrganization) :=
  match data with
  | .arr items => orgsGo items
  | _ => .ok []

/-- Construction of one `SentryTeam` (lines 199-212): the member fetch uses
`team_data["slug"]` first (line 201), then the dataclass arguments are
evaluated in order. -/
def mkTeam (orgSlug : JsonV) (membersOf : JsonV → Except PyError JsonV) (v : JsonV) :
    Except PyError SentryTeam := do
  let s0 ← pyIndex v "slug"
  let ms ← membersOf s0
  let i ← pyIndex v "id"
  let s ← pyIndex v "slug"
  let n ← pyIndex v "name"
  let ps ← pyGet v "projects" (.arr [])
  .ok ⟨i, s, n, orgSlug, ms, ps, v.objEntries⟩

/-- The per-element loop of `get_teams`. -/
def teamsGo (orgSlug : JsonV) (membersOf : JsonV → Except PyError JsonV) :
    List JsonV → Except PyError (List SentryTeam)
  | [] => .ok []
  | v :: rest => do
      let t ← mkTeam orgSlug membersOf v
      let ts ← teamsGo orgSlug membersOf rest
      .ok (t :: ts)

/-- `SentryDiscovery.get_teams` (lines 190-215): `membersOf` stands for the
`get_team_members` call performed for each team slug. -/
def get_teams (orgSlug : JsonV) (membersOf : JsonV → Except PyError JsonV)
    (data : JsonV) : Except PyError (List SentryTeam) :=
  match data with
  | .arr items => teamsGo orgSlug membersOf items
  | _ => .ok []

/-- Construction of one `SentryProject` (lines 238-257): the team-assignment
fetch and the detail fetch each use `project_data["slug"]` (lines 240 and
243), then the dataclass arguments are evaluated in order, ending with
`options = details.get("options", {})` and `raw_data = {**project_data,
**details}`. -/
def mkProject (orgSlug : JsonV) (projTeamsOf detailsOf : JsonV → Except PyError JsonV)
    (v : JsonV) : Except PyError SentryProject := do
  let s0 ← pyIndex v "slug"
  let ts ← projTeamsOf s0
  let s1 ← pyIndex v "slug"
  let det ← detailsOf s1
  let i ← pyIndex v "id"
  let s ← pyIndex v "slug"
  let n ← pyIndex v "name"
  let pf ← pyGet v "platform" (.str "other")
  let st ← pyGet v "status" (.str "unknown")
  let fs ← pyGet v "features" (.arr [])
  let opts ← pyGet det "options" (.obj [])
  match det with
  | .obj dd => .ok ⟨i, s, n, orgSlug, pf, ts, st, fs, opts, dictUnion v.objEntries dd⟩
  | _ => .error (.typeError "argument after ** must be a mapping")

/-- The per-element loop of `get_projects`. -/
def projectsGo (orgSlug : JsonV) (projTeamsOf detailsOf : JsonV → Except PyError JsonV) :
    List JsonV → Except PyError (List SentryProject)
  | [] => .ok []
  | v :: rest => do
      let p ← mkProject orgSlug projTeamsOf detailsOf v
      let ps ← projectsGo orgSlug projTeamsOf detailsOf rest
      .ok (p :: ps)

/-- `SentryDiscovery.get_projects` (lines 229-260): `projTeamsOf` and
`detailsOf` stand for the `get_project_teams` and `get_project_details`
calls performed for each project slug. -/
def get_projects (orgSlug : JsonV) (projTeamsOf detailsOf : JsonV → Except PyError JsonV)
    (data : JsonV) : Except PyError (List SentryProject) :=
  match data with
  | .arr items => projectsGo orgSlug projTeamsOf detailsOf items
  | _ => .ok []

/-- `SentryDiscovery._serialize_team` (lines 341-351): a dict literal of the
typed fields in source order with `**team.raw_data` spread last. -/
def serialize_team (team : SentryTeam) : Dict :=
  dictUnion
    [("id", team.id), ("slug", team.slug), ("name", team.name),
     ("organization", team.organization), ("members", team.members),
     ("projects", team.projects)]
    team.raw_data

/-- `SentryDiscovery._serialize_project` (lines 353-366). -/
def serialize_project (project : SentryProject) : Dict :=
  dictUnion
    [("id", project.id), ("slug", project.slug), ("name", project.name),
     ("organization", project.organization), ("platform", project.platform),
     ("teams", project.teams), ("status", project.status),
     ("features", project.features), ("options", project.options)]
    project.raw_data

/-- Return value of `discover_all`: the bare `{}` of the no-organizations
path (line 299) or the snapshot dict of line 313 with its `organization`,
`teams` and `projects` keys. -/
inductive DiscoveryResult where
  | emptyDict
  | snapshot (organization : Dict) (teams : List Dict) (projects : List Dict)

/-- Python `o.slug == target` where `target` is a string: equal exactly when
`o.slug` is that string. -/
def jsonEqStr (v : JsonV) (s : String) : Bool :=
  match v with
  | .str t => t == s
  | _ => false

/-- Organization resolution of `discover_all` (lines 302-308).  Python's
`if target_org_slug:` is truthiness, so an empty-string target behaves like
no target and selects the first organization. -/
def resolveOrg (orgs : List SentryOrganization) (first : SentryOrganization)
    (target : Option String) : Except PyError SentryOrganization :=
  match target with
  | some s =>
      if s ≠ "" then
        match orgs.find? (fun o => jsonEqStr o.slug s) with
        | some m => .ok m
        | none => .error (.valueError ("Organization \x27" ++ s ++ "\x27 not found"))
      else .ok first
  | none => .ok first

/-- Projects phase and completion of `discover_all` (lines 324-339): skipped
when `teams_only`, otherwise the project fetch result is serialized; progress
checkpoints 90 (when the phase ran) and 100 are appended. -/
def discoverProjectsPhase (projectsOf : JsonV → Except PyError (List SentryProject))
    (teams_only cb : Bool) (org : SentryOrganization) (teamsSer : List Dict)
    (prog : List Nat) : Except PyError DiscoveryResult × List Nat :=
  if teams_only then
    (.ok (.snapshot org.raw_data teamsSer []), prog ++ (if cb then [100] else []))
  else
    match projectsOf org.slug with
    | .error e => (.error e, prog)
    | .ok ps =>
        ((.ok (.snapshot org.raw_data teamsSer (ps.map serialize_project))),
          (prog ++ (if cb then [90] else [])) ++ (if cb then [100] else []))

/-- Teams phase of `discover_all` (lines 315-322) followed by the projects
phase: skipped when `projects_only`, otherwise the team fetch result is
serialized and checkpoint 60 appended. -/
def discoverPhases (teamsOf : JsonV → Except PyError (List SentryTeam))
    (projectsOf : JsonV → Except PyError (List SentryProject))
    (projects_only teams_only cb : Bool) (org : SentryOrganization)
    (prog : List Nat) : Except PyError DiscoveryResult × List Nat :=
  if projects_only then
    discoverProjectsPhase projectsOf teams_only cb org [] prog
  else
    match teamsOf org.slug with
    | .error e => (.error e, prog)
    | .ok ts =>
        discoverProjectsPhase projectsOf teams_only cb org (ts.map serialize_team)
          (prog ++ (if cb then [60] else []))

/-- `SentryDiscovery.discover_all` (lines 282-339).  `orgsResult` is the
result of `self.get_organizations()`, `teamsOf`/`projectsOf` the results of
`self.get_teams`/`self.get_projects` for a given organization slug, `cb`
whether a progress callback was supplied; the second component is the list
of percentages passed to the callback, in order.  Raised exceptions
propagate; the empty-organizations path returns the bare `{}`. -/
def discover_all (orgsResult : Except PyError (List SentryOrganization))
    (teamsOf : JsonV → Except PyError (List SentryTeam))
    (projectsOf : JsonV → Except PyError (List SentryProject))
    (target_org_slug : Option String) (projects_only teams_only cb : Bool) :
    Except PyError DiscoveryResult × List Nat :=
  let prog0 : List Nat := if cb then [10] else []
  match orgsResult with
  | .error e => (.error e, prog0)
  | .ok [] => (.ok .emptyDict, prog0)
  | .ok (o :: rest) =>
      match resolveOrg (o :: rest) o target_org_slug with
      | .error e => (.error e, prog0)
      | .ok org =>
          discoverPhases teamsOf projectsOf projects_only teams_only cb org
            (prog0 ++ (if cb then [20] else []))

/-! ### Dictionary lemmas -/

theorem dictGet?_eq_none_of_forall_ne {d : Dict} {k : String}
    (h : ∀ p ∈ d, p.1 ≠ k) : dictGet? d k = none := by
  induction d with
  | nil => rfl
  | cons p d ih =>
      have hp : p.1 ≠ k := h p (List.mem_cons_self p d)
      simp only [dictGet?, if_neg hp]
      exact ih fun q hq => h q (List.mem_cons_of_mem p hq)

theorem dictGet?_insert_self (d : Dict) (k : String) (v : JsonV) :
    dictGet? (dictInsert d k v) k = some v := by
  induction d with
  | nil => simp [dictInsert, dictGet?]
  | cons p d ih =>
      by_cases hp : p.1 = k
      · simp [dictInsert, hp, dictGet?]
      · simp [dictInsert, hp, dictGet?, ih]

theorem dictGet?_insert_ne (d : Dict) {k k' : String} (v : JsonV) (h : k' ≠ k) :
    dictGet? (dictInsert d k v) k' = dictGet? d k' := by
  have h' : k ≠ k' := Ne.symm h
  induction d with
  | nil => simp [dictInsert, dictGet?, h']
  | cons p d ih =>
      by_cases hp : p.1 = k
      · subst hp
        have hp' : p.1 ≠ k' := h'
        simp [dictInsert, dictGet?, hp']
      · simp [dictInsert, hp, dictGet?, ih]

/-- Lookup in `{**d1, **d2}` for a duplicate-free `d2`: entries of `d2` win,
entries of `d1` survive only on keys `d2` lacks. -/
theorem dictGet?_union (d1 : Dict) (d2 : Dict) (hnd : (d2.map Prod.fst).Nodup)
    (k : String) :
    dictGet? (dictUnion d1 d2) k =
      match dictGet? d2 k with
      | some v => some v
      | none => dictGet? d1 k := by
  induction d2 generalizing d1 with
  | nil => rfl
  | cons p d2 ih =>
      have hnd' : (d2.map Prod.fst).Nodup := (List.nodup_cons.mp hnd).2
      have hni : p.1 ∉ d2.map Prod.fst := (List.nodup_cons.mp hnd).1
      have hstep : dictUnion d1 (p :: d2) = dictUnion (dictInsert d1 p.1 p.2) d2 := rfl
      rw [hstep, ih _ hnd']
      by_cases hk : p.1 = k
      · subst hk
        have h2 : dictGet? d2 p.1 = none := by
          refine dictGet?_eq_none_of_forall_ne fun q hq hq1 => hni ?_
          exact hq1 ▸ List.mem_map_of_mem Prod.fst hq
        simp [dictGet?, h2, dictGet?_insert_self]
      · simp [dictGet?, hk, dictGet?_insert_ne d1 p.2 (Ne.symm hk)]

/-! ### Concrete fixtures used by several counterexamples -/

/-- An organization whose payload has slug `"a"`. -/
def orgA : SentryOrganization :=
  ⟨.str "1", .str "a", .str "A", .arr [], .obj [],
   [("id", .str "1"), ("slug", .str "a"), ("name", .str "A")]⟩

/-- An organization whose payload has slug `"b"`. -/
def orgB : SentryOrganization :=
  ⟨.str "2", .str "b", .str "B", .arr [], .obj [],
   [("id", .str "2"), ("slug", .str "b"), ("name", .str "B")]⟩

/-- A team the traversal could return. -/
def teamT : SentryTeam :=
  ⟨.str "t1", .str "t1", .str "T", .str "a", .arr [], .arr [],
   [("id", .str "t1"), ("slug", .str "t1"), ("name", .str "T")]⟩

/-- A project the traversal could return. -/
def projP : SentryProject :=
  ⟨.str "p1", .str "p1", .str "P", .str "a", .str "other", .arr [], .str "active",
   .arr [], .obj [],
   [("id", .str "p1"), ("slug", .str "p1"), ("name", .str "P")]⟩

/-! ### C3: serialization overlays raw on typed fields -/

/-- C3: for every team and every project whose raw payload is a well-formed
(duplicate-free) Python dict, the serialized mapping consists of the typed
fields (id, slug, name and the class-specific fields) overlaid by every key
of the raw payload, raw values winning on collisions; in particular a team
with typed slug `"t1"` and raw payload `{"slug": "t1-raw"}` serializes with
slug `"t1-raw"` while the non-colliding typed field name stays `"Team One"`. -/
theorem serialize_raw_overrides_typed :
    (∀ t : SentryTeam, (t.raw_data.map Prod.fst).Nodup → ∀ k,
      dictGet? (serialize_team t) k =
        match dictGet? t.raw_data k with
        | some v => some v
        | none =>
            dictGet? [("id", t.id), ("slug", t.slug), ("name", t.name),
              ("organization", t.organization), ("members", t.members),
              ("projects", t.projects)] k) ∧
    (∀ p : SentryProject, (p.raw_data.map Prod.fst).Nodup → ∀ k,
      dictGet? (serialize_project p) k =
        match dictGet? p.raw_data k with
        | some v => some v
        | none =>
            dictGet? [("id", p.id), ("slug", p.slug), ("name", p.name),
              ("organization", p.organization), ("platform", p.platform),
              ("teams", p.teams), ("status", p.status),
              ("features", p.features), ("options", p.options)] k) ∧
    dictGet? (serialize_team ⟨.str "t1", .str "t1", .str "Team One", .str "acme",
        .arr [], .arr [], [("slug", .str "t1-raw")]⟩) "slug" = some (.str "t1-raw") ∧
    dictGet? (serialize_team ⟨.str "t1", .str "t1", .str "Team One", .str "acme",
        .arr [], .arr [], [("slug", .str "t1-raw")]⟩) "name" = some (.str "Team One") := by
  refine ⟨fun t h k => ?_, fun p h k => ?_, rfl, rfl⟩
  · exact dictGet?_union _ t.raw_data h k
  · exact dictGet?_union _ p.raw_data h k

/-- C3 witness: the general statement applied to the concrete team of the
claim, its raw payload visibly duplicate-free. -/
theorem serialize_raw_overrides_typed_witness :
    dictGet? (serialize_team teamT) "slug" =
      match dictGet? teamT.raw_data "slug" with
      | some v => some v
      | none =>
          dictGet? [("id", teamT.id), ("slug", teamT.slug), ("name", teamT.name),
            ("organization", teamT.organization), ("members", teamT.members),
            ("projects", teamT.projects)] "slug" :=
  serialize_raw_overrides_typed.1 teamT (by decide) "slug"

/-! ### C1: both selection flags together -/

/-- C1 counterexample: with `projects_only` and `teams_only` both true, an
organization resolved, and traversal able to return one team and one project,
the returned snapshot has empty `teams` and `projects` lists — both phases
were skipped, so the lists are not populated from traversal. -/
theorem both_flags_counterexample :
    discover_all (.ok [orgA]) (fun _ => .ok [teamT]) (fun _ => .ok [projP])
        none true true true
      = (.ok (.snapshot orgA.raw_data [] []), [10, 20, 100]) ∧
    (Except.ok (.snapshot orgA.raw_data [] []) : Except PyError DiscoveryResult) ≠
      .ok (.snapshot orgA.raw_data ([teamT].map serialize_team)
        ([projP].map serialize_project)) := by
  refine ⟨rfl, fun h => ?_⟩
  simp [serialize_team, teamT] at h

/-- C1 amended: passing both flags skips both phases — `projects_only` skips
teams and `teams_only` skips projects, so the snapshot carries the resolved
organization with empty `teams` and `projects` lists, independently of what
the team and project traversals would return. -/
theorem both_flags_skip_both (o : SentryOrganization) (rest : List SentryOrganization)
    (teamsOf : JsonV → Except PyError (List SentryTeam))
    (projectsOf : JsonV → Except PyError (List SentryProject)) (cb : Bool) :
    discover_all (.ok (o :: rest)) teamsOf projectsOf none true true cb
      = (.ok (.snapshot o.raw_data [] []),
         ((if cb then [10] else []) ++ (if cb then [20] else []))
           ++ (if cb then [100] else [])) := rfl

/-! ### C4: organization resolution -/

/-- C4 counterexample: the target slug `""` is given and no fetched
organization has that slug, yet `discover_all` does not fail with a
not-found error — Python's `if target_org_slug:` is falsy on the empty
string, so the code silently falls back to the first organization. -/
theorem resolution_counterexample :
    (discover_all (.ok [orgA]) (fun _ => .ok []) (fun _ => .ok [])
        (some "") false false true)
      = (.ok (.snapshot orgA.raw_data [] []), [10, 20, 60, 90, 100]) ∧
    ∀ e, (discover_all (.ok [orgA]) (fun _ => .ok []) (fun _ => .ok [])
        (some "") false false true).1 ≠ .error e := by
  refine ⟨rfl, fun e h => ?_⟩
  have h1 : (discover_all (.ok [orgA]) (fun _ => .ok []) (fun _ => .ok [])
      (some "") false false true).1 = .ok (.snapshot orgA.raw_data [] []) := rfl
  rw [h1] at h
  exact Except.noConfusion h

/-- C4 amended: for every non-empty fetched organization list, a *non-empty*
target slug resolves the first exactly-matching organization, or fails with
the not-found `ValueError` when none matches; with no target slug, or with
the empty-string target slug (falsy in Python), the first organization is
resolved.  Stated on runs with both selection flags set, which skip both
phases and expose the resolved organization directly. -/
theorem resolution_amended (o : SentryOrganization) (rest : List SentryOrganization)
    (teamsOf : JsonV → Except PyError (List SentryTeam))
    (projectsOf : JsonV → Except PyError (List SentryProject)) (cb : Bool) :
    (∀ s : String, s ≠ "" →
      (∀ m, (o :: rest).find? (fun x => jsonEqStr x.slug s) = some m →
        (discover_all (.ok (o :: rest)) teamsOf projectsOf (some s) true true cb).1
          = .ok (.snapshot m.raw_data [] [])) ∧
      ((o :: rest).find? (fun x => jsonEqStr x.slug s) = none →
        (discover_all (.ok (o :: rest)) teamsOf projectsOf (some s) true true cb).1
          = .error (.valueError ("Organization \x27" ++ s ++ "\x27 not found")))) ∧
    (discover_all (.ok (o :: rest)) teamsOf projectsOf none true true cb).1
      = .ok (.snapshot o.raw_data [] []) ∧
    (discover_all (.ok (o :: rest)) teamsOf projectsOf (some "") true true cb).1
      = .ok (.snapshot o.raw_data [] []) := by
  refine ⟨fun s hs => ⟨fun m hm => ?_, fun hn => ?_⟩, rfl, rfl⟩
  · simp [discover_all, resolveOrg, hs, hm, discoverPhases, discoverProjectsPhase]
  · simp [discover_all, resolveOrg, hs, hn, discoverPhases, discoverProjectsPhase]

/-- C4 witness: with organizations of slugs `"a"` and `"b"` and target slug
`"b"`, the organization with slug `"b"` is resolved; with target `"c"`, the
not-found error is raised. -/
theorem resolution_amended_witness :
    (discover_all (.ok [orgA, orgB]) (fun _ => .ok []) (fun _ => .ok [])
        (some "b") true true true).1 = .ok (.snapshot orgB.raw_data [] []) ∧
    (discover_all (.ok [orgA, orgB]) (fun _ => .ok []) (fun _ => .ok [])
        (some "c") true true true).1
      = .error (.valueError ("Organization \x27" ++ "c" ++ "\x27 not found")) :=
  ⟨((resolution_amended orgA [orgB] (fun _ => .ok []) (fun _ => .ok []) true).1
      "b" (by decide)).1 orgB rfl,
   ((resolution_amended orgA [orgB] (fun _ => .ok []) (fun _ => .ok []) true).1
      "c" (by decide)).2 rfl⟩

/-! ### C9: empty organization list -/

/-- C9: whenever the organization fetch returns the empty list,
`discover_all` returns the bare empty dict and raises nothing, for every
target slug and every combination of selection flags; only the initial
checkpoint 10 was reported. -/
theorem empty_orgs_empty_snapshot
    (teamsOf : JsonV → Except PyError (List SentryTeam))
    (projectsOf : JsonV → Except PyError (List SentryProject))
    (target : Option String) (projects_only teams_only cb : Bool) :
    discover_all (.ok []) teamsOf projectsOf target projects_only teams_only cb
      = (.ok .emptyDict, if cb then [10] else []) := rfl

/-! ### C8: progress checkpoints -/

/-- Transfers the four C8 conjuncts along an evaluation of `discover_all` to
an explicit result/trace pair. -/
theorem c8_of_eq {d : Except PyError DiscoveryResult × List Nat}
    (res : Except PyError DiscoveryResult) (tr : List Nat) (hd : d = (res, tr))
    (h1 : List.Chain' (· ≤ ·) tr)
    (h2 : ∀ x ∈ tr, x ∈ ([10, 20, 60, 90, 100] : List Nat))
    (h3 : ∀ x ∈ tr, x ≤ 100)
    (h4 : ∀ od ts ps, res = .ok (.snapshot od ts ps) → tr.getLast? = some 100) :
    List.Chain' (· ≤ ·) d.2 ∧
    (∀ x ∈ d.2, x ∈ ([10, 20, 60, 90, 100] : List Nat)) ∧
    (∀ x ∈ d.2, x ≤ 100) ∧
    ∀ od ts ps, d.1 = .ok (.snapshot od ts ps) → d.2.getLast? = some 100 := by
  subst hd
  exact ⟨h1, h2, h3, h4⟩

/-- C8: across every single run of `discover_all` with a progress callback,
the sequence of reported values is monotonically non-decreasing, drawn from
the checkpoints 10, 20, 60, 90, 100, never exceeds 100, and every run that
completes with a snapshot — in particular a completed full run with both
flags false — ends at exactly 100. -/
theorem progress_checkpoints (orgsResult : Except PyError (List SentryOrganization))
    (teamsOf : JsonV → Except PyError (List SentryTeam))
    (projectsOf : JsonV → Except PyError (List SentryProject))
    (target : Option String) (projects_only teams_only : Bool) :
    List.Chain' (· ≤ ·)
      (discover_all orgsResult teamsOf projectsOf target projects_only teams_only true).2 ∧
    (∀ x ∈ (discover_all orgsResult teamsOf projectsOf target projects_only teams_only true).2,
      x ∈ ([10, 20, 60, 90, 100] : List Nat)) ∧
    (∀ x ∈ (discover_all orgsResult teamsOf projectsOf target projects_only teams_only true).2,
      x ≤ 100) ∧
    (∀ od ts ps,
      (discover_all orgsResult teamsOf projectsOf target projects_only teams_only true).1
        = .ok (.snapshot od ts ps) →
      (discover_all orgsResult teamsOf projectsOf target projects_only teams_only true).2.getLast?
        = some 100) := by
  rcases orgsResult with e | orgs
  · exact c8_of_eq (.error e) ([10]) rfl
      (by norm_num [List.chain'_cons]) (by decide) (by decide)
      (fun od ts ps h => by simp at h)
  rcases orgs with _ | ⟨o, rest⟩
  · exact c8_of_eq (.ok .emptyDict) ([10]) rfl
      (by norm_num [List.chain'_cons]) (by decide) (by decide)
      (fun od ts ps h => by simp at h)
  rcases hres : resolveOrg (o :: rest) o target with e | org
  · refine c8_of_eq (.error e) ([10]) ?_
      (by norm_num [List.chain'_cons]) (by decide) (by decide)
      (fun od ts ps h => by simp at h)
    simp [discover_all, hres]
  cases projects_only with
  | true =>
      cases teams_only with
      | true =>
          refine c8_of_eq (.ok (.snapshot org.raw_data [] []))
            ([10, 20, 100]) ?_
            (by norm_num [List.chain'_cons]) (by decide) (by decide)
            (fun od ts ps h => rfl)
          simp [discover_all, hres, discoverPhases, discoverProjectsPhase]
      | false =>
          rcases hpf : projectsOf org.slug with e | ps
          · refine c8_of_eq (.error e) ([10, 20]) ?_
              (by norm_num [List.chain'_cons]) (by decide) (by decide)
              (fun od ts ps h => by simp at h)
            simp [discover_all, hres, discoverPhases, discoverProjectsPhase, hpf]
          · refine c8_of_eq
              (.ok (.snapshot org.raw_data [] (ps.map serialize_project)))
              ([10, 20, 90, 100]) ?_
              (by norm_num [List.chain'_cons]) (by decide) (by decide)
              (fun od ts ps h => rfl)
            simp [discover_all, hres, discoverPhases, discoverProjectsPhase, hpf]
  | false =>
      rcases htf : teamsOf org.slug with e | ts
      · refine c8_of_eq (.error e) ([10, 20]) ?_
          (by norm_num [List.chain'_cons]) (by decide) (by decide)
          (fun od ts ps h => by simp at h)
        simp [discover_all, hres, discoverPhases, htf]
      cases teams_only with
      | true =>
          refine c8_of_eq
            (.ok (.snapshot org.raw_data (ts.map serialize_team) []))
            ([10, 20, 60, 100]) ?_
            (by norm_num [List.chain'_cons]) (by decide) (by decide)
            (fun od ts' ps h => rfl)
          simp [discover_all, hres, discoverPhases, discoverProjectsPhase, htf]
      | false =>
          rcases hpf : projectsOf org.slug with e | ps
          · refine c8_of_eq (.error e) ([10, 20, 60]) ?_
              (by norm_num [List.chain'_cons]) (by decide) (by decide)
              (fun od ts' ps' h => by simp at h)
            simp [discover_all, hres, discoverPhases, discoverProjectsPhase, htf, hpf]
          · refine c8_of_eq
              (.ok (.snapshot org.raw_data (ts.map serialize_team)
                (ps.map serialize_project)))
              ([10, 20, 60, 90, 100]) ?_
              (by norm_num [List.chain'_cons]) (by decide) (by decide)
              (fun od ts' ps' h => rfl)
            simp [discover_all, hres, discoverPhases, discoverProjectsPhase, htf, hpf]

/-- C8 witness: a concrete completed full run; the reported sequence ends at
exactly 100. -/
theorem progress_checkpoints_witness :
    (discover_all (.ok [orgA]) (fun _ => .ok []) (fun _ => .ok [])
        none false false true).2.getLast? = some 100 :=
  (progress_checkpoints (.ok [orgA]) (fun _ => .ok []) (fun _ => .ok [])
      none false false).2.2.2 orgA.raw_data [] [] rfl

/-! ### C2: 429 handling consumes the retry budget -/

/-- On an all-429 script, every remaining iteration sleeps the
`Retry-After` value (default 60), records its timestamp, and `continue`s;
the loop then falls through into the final attempts-exhausted error. -/
theorem makeRequestGo_all429 (r : Nat) (url : String) (bodyF : Nat → JsonV)
    (textF : Nat → String) (raF : Nat → Option Nat) (reasonF : Nat → String)
    (tF : Nat → Int) :
    ∀ fuel i, makeRequestGo r url
        (fun j => ⟨.response 429 (bodyF j) (textF j) (raF j) (reasonF j), tF j⟩) fuel i =
      { result := .error (.sentryAPIError
          ("Failed to make request after " ++ toString (r + 1) ++ " attempts") none none),
        sleeps := (List.range' i fuel).map (fun j => .retryAfter ((raF j).getD 60)),
        attempts := fuel,
        timestamps := (List.range' i fuel).map tF } := by
  intro fuel
  induction fuel with
  | zero => intro i; rfl
  | succ f ih =>
      intro i
      simp [makeRequestGo, recordResponse, ih, List.range'_succ]

/-- C2 counterexample: with a retry budget of 3, four consecutive 429
responses make `_make_request` fail with the retry-exhaustion error — the
429 `continue` advances the bounded `for` loop, so rate-limited attempts do
consume retry slots. -/
theorem rate_limit_counterexample :
    make_request 3 "u" (fun _ => ⟨.response 429 .null "" none "", 0⟩) =
      { result := .error (.sentryAPIError "Failed to make request after 4 attempts"
          none none),
        sleeps := [.retryAfter 60, .retryAfter 60, .retryAfter 60, .retryAfter 60],
        attempts := 4,
        timestamps := [0, 0, 0, 0] } := rfl

/-- C2 amended: each 429 response sleeps the `Retry-After` duration (default
60 seconds when the header is absent) and retries, but consumes a slot of
the bounded retry budget: `retry_attempts + 1` consecutive 429 responses
exhaust the loop and `_make_request` fails with the retry-exhaustion
`SentryAPIError`. -/
theorem rate_limit_consumes_budget (r : Nat) (url : String) (bodyF : Nat → JsonV)
    (textF : Nat → String) (raF : Nat → Option Nat) (reasonF : Nat → String)
    (tF : Nat → Int) :
    make_request r url
        (fun j => ⟨.response 429 (bodyF j) (textF j) (raF j) (reasonF j), tF j⟩) =
      { result := .error (.sentryAPIError
          ("Failed to make request after " ++ toString (r + 1) ++ " attempts") none none),
        sleeps := (List.range (r + 1)).map (fun j => .retryAfter ((raF j).getD 60)),
        attempts := r + 1,
        timestamps := (List.range (r + 1)).map tF } := by
  have h := makeRequestGo_all429 r url bodyF textF raF reasonF tF (r + 1) 0
  simpa [make_request, List.range_eq_range'] using h

/-! ### C6: transient-failure retries with exponential backoff -/

/-- On an all-timeout script with `i + fuel = retry_attempts + 1`, the loop
performs its remaining `fuel` attempts, sleeping `2 ^ attempt` seconds after
each non-final one, and raises the timeout error; no timestamp is stored. -/
theorem makeRequestGo_allTimeout (r : Nat) (url : String) (tF : Nat → Int) :
    ∀ fuel i, i + fuel = r + 1 → 1 ≤ fuel →
      makeRequestGo r url (fun j => ⟨.timeout, tF j⟩) fuel i =
      { result := .error (.sentryAPIError
          ("Request timeout after " ++ toString r ++ " retries") none none),
        sleeps := (List.range' i (fuel - 1)).map (fun j => .backoff (2 ^ j)),
        attempts := fuel,
        timestamps := [] } := by
  intro fuel
  induction fuel with
  | zero => intro i _ h1; exact absurd h1 (by omega)
  | succ f ih =>
      cases f with
      | zero =>
          intro i hsum _
          have hir : i = r := by omega
          subst hir
          simp [makeRequestGo, recordNoResponse, pureResult]
      | succ k =>
          intro i hsum _
          have hlt : i < r := by omega
          have hrec := ih (i + 1) (by omega) (by omega)
          rw [makeRequestGo.eq_2, hrec]
          simp [recordNoResponse, hlt, List.range'_succ]

/-- On an all-connection-error script with `i + fuel = retry_attempts + 1`,
the loop performs its remaining `fuel` attempts, sleeping `2 ^ attempt`
seconds after each non-final one, and raises the connection error; no
timestamp is stored. -/
theorem makeRequestGo_allConnError (r : Nat) (url : String) (tF : Nat → Int) :
    ∀ fuel i, i + fuel = r + 1 → 1 ≤ fuel →
      makeRequestGo r url (fun j => ⟨.connError, tF j⟩) fuel i =
      { result := .error (.sentryAPIError
          ("Connection error after " ++ toString r ++ " retries") none none),
        sleeps := (List.range' i (fuel - 1)).map (fun j => .backoff (2 ^ j)),
        attempts := fuel,
        timestamps := [] } := by
  intro fuel
  induction fuel with
  | zero => intro i _ h1; exact absurd h1 (by omega)
  | succ f ih =>
      cases f with
      | zero =>
          intro i hsum _
          have hir : i = r := by omega
          subst hir
          simp [makeRequestGo, recordNoResponse, pureResult]
      | succ k =>
          intro i hsum _
          have hlt : i < r := by omega
          have hrec := ih (i + 1) (by omega) (by omega)
          rw [makeRequestGo.eq_2, hrec]
          simp [recordNoResponse, hlt, List.range'_succ]

/-- C6: for every retry budget `r`, a script of consecutive timeouts — and
likewise a script of consecutive connection failures — produces exactly
`r + 1` attempts with exponential-backoff waits of `2 ^ attempt` seconds
(attempt starting at 0), after which `_make_request` fails with the
respective transient-network `SentryAPIError` whose message includes the
configured attempt count; with `retry_attempts = 2`, three consecutive
timeouts give exactly 3 attempts with waits of 1s then 2s. -/
theorem transient_retry_backoff (r : Nat) (url : String) (tF tG : Nat → Int) :
    make_request r url (fun j => ⟨.timeout, tF j⟩) =
      { result := .error (.sentryAPIError
          ("Request timeout after " ++ toString r ++ " retries") none none),
        sleeps := (List.range r).map (fun j => .backoff (2 ^ j)),
        attempts := r + 1,
        timestamps := [] } ∧
    make_request r url (fun j => ⟨.connError, tG j⟩) =
      { result := .error (.sentryAPIError
          ("Connection error after " ++ toString r ++ " retries") none none),
        sleeps := (List.range r).map (fun j => .backoff (2 ^ j)),
        attempts := r + 1,
        timestamps := [] } ∧
    (∃ pre post, "Request timeout after " ++ toString r ++ " retries"
        = pre ++ toString r ++ post) ∧
    (∃ pre post, "Connection error after " ++ toString r ++ " retries"
        = pre ++ toString r ++ post) ∧
    make_request 2 url (fun _ => ⟨.timeout, 0⟩) =
      { result := .error (.sentryAPIError "Request timeout after 2 retries" none none),
        sleeps := [.backoff 1, .backoff 2],
        attempts := 3,
        timestamps := [] } ∧
    make_request 2 url (fun _ => ⟨.connError, 0⟩) =
      { result := .error (.sentryAPIError "Connection error after 2 retries" none none),
        sleeps := [.backoff 1, .backoff 2],
        attempts := 3,
        timestamps := [] } := by
  refine ⟨?_, ?_, ⟨"Request timeout after ", " retries", rfl⟩,
    ⟨"Connection error after ", " retries", rfl⟩, rfl, rfl⟩
  · have h := makeRequestGo_allTimeout r url tF (r + 1) 0 (by omega) (by omega)
    simpa [make_request, List.range_eq_range'] using h
  · have h := makeRequestGo_allConnError r url tG (r + 1) 0 (by omega) (by omega)
    simpa [make_request, List.range_eq_range'] using h

/-! ### C5: other non-2xx statuses -/

/-- A status that falls past every handled case without being a 4xx/5xx
(1xx or 3xx) makes `raise_for_status` a no-op, so the iteration ends without
returning and the loop retries until the attempts-exhausted error. -/
theorem makeRequestGo_fallthrough (r st : Nat) (url text reason : String)
    (body : JsonV) (ra : Option Nat) (t1 : Int)
    (hst : st < 200 ∨ (300 ≤ st ∧ st < 400)) :
    ∀ fuel i,
      (makeRequestGo r url (fun _ => ⟨.response st body text ra reason, t1⟩) fuel i).result
        = .error (.sentryAPIError
            ("Failed to make request after " ++ toString (r + 1) ++ " attempts")
            none none) := by
  intro fuel
  induction fuel with
  | zero => intro i; rfl
  | succ f ih =>
      intro i
      rw [makeRequestGo.eq_2]
      dsimp only
      split_ifs with c1 c2 c3 c4 c5 c6
      · omega
      · omega
      · omega
      · omega
      · omega
      · omega
      · simp [recordResponse, ih]

/-- C5 counterexample: a 500 response makes `_make_request` fail with a
`SentryAPIError` whose `status_code` and `response` attributes are both
unset — the wrapped `raise_for_status` error is re-raised through the
one-argument `SentryAPIError("Request failed: ...")`, so the response body
`"boom"` is not carried. -/
theorem generic_error_counterexample :
    (make_request 0 "u"
        (fun _ => ⟨.response 500 .null "boom" none "Internal Server Error", 5⟩)).result
      = .error (.sentryAPIError
          "Request failed: 500 Server Error: Internal Server Error for url: u"
          none none) ∧
    (make_request 0 "u"
        (fun _ => ⟨.response 500 .null "boom" none "Internal Server Error", 5⟩)).result
      ≠ .error (.sentryAPIError
          "Request failed: 500 Server Error: Internal Server Error for url: u"
          (some 500) (some "boom")) := by
  refine ⟨rfl, fun h => ?_⟩
  have h1 : (make_request 0 "u"
      (fun _ => ⟨.response 500 .null "boom" none "Internal Server Error", 5⟩)).result
      = .error (.sentryAPIError
          "Request failed: 500 Server Error: Internal Server Error for url: u"
          none none) := rfl
  rw [h1] at h
  simp at h

/-- C5 amended: a 4xx/5xx status outside {404, 429, 401, 403} makes the
attempt fail immediately with a generic `SentryAPIError` wrapping the HTTP
error text; the message names the status code, but the error's
`status_code`/`response` attributes are unset and the response body is not
carried.  A non-2xx status outside 4xx/5xx (1xx/3xx) is not raised at all:
the loop retries it and fails with the attempts-exhausted error instead. -/
theorem generic_error_amended (r st : Nat) (url text reason : String) (body : JsonV)
    (ra : Option Nat) (t1 : Int) :
    (400 ≤ st → st < 600 → st ≠ 404 → st ≠ 429 → st ≠ 401 → st ≠ 403 →
      (make_request r url (fun _ => ⟨.response st body text ra reason, t1⟩)).result
        = .error (.sentryAPIError
            ("Request failed: " ++ httpErrorMessage st reason url) none none) ∧
      (make_request r url (fun _ => ⟨.response st body text ra reason, t1⟩)).attempts = 1 ∧
      ∃ pre post,
        "Request failed: " ++ httpErrorMessage st reason url
          = pre ++ (toString st ++ post)) ∧
    ((st < 200 ∨ (300 ≤ st ∧ st < 400)) →
      (make_request r url (fun _ => ⟨.response st body text ra reason, t1⟩)).result
        = .error (.sentryAPIError
            ("Failed to make request after " ++ toString (r + 1) ++ " attempts")
            none none)) := by
  constructor
  · intro h1 h2 h3 h4 h5 h6
    have key : make_request r url (fun _ => ⟨.response st body text ra reason, t1⟩)
        = recordResponse ⟨.response st body text ra reason, t1⟩
            (pureResult (.error (.sentryAPIError
              ("Request failed: " ++ httpErrorMessage st reason url) none none))) := by
      rw [make_request, makeRequestGo.eq_2]
      dsimp only
      split_ifs with c1 c2 c3 c4
      · omega
      · omega
      · omega
      · rfl
      · omega
    rw [key]
    refine ⟨rfl, rfl, ?_⟩
    by_cases hc : st < 500
    · exact ⟨"Request failed: ",
        " Client Error: " ++ reason ++ " for url: " ++ url,
        by simp [httpErrorMessage, hc, String.append_assoc]⟩
    · exact ⟨"Request failed: ",
        " Server Error: " ++ reason ++ " for url: " ++ url,
        by simp [httpErrorMessage, hc, String.append_assoc]⟩
  · intro hst
    exact makeRequestGo_fallthrough r st url text reason body ra t1 hst (r + 1) 0

/-- C5 witness: the amended statement applied at a 418 response (immediate
generic error) and at a 301 response (fall-through exhaustion). -/
theorem generic_error_amended_witness :
    (make_request 0 "u" (fun _ => ⟨.response 418 .null "teapot" none "Teapot", 0⟩)).result
      = .error (.sentryAPIError
          ("Request failed: " ++ httpErrorMessage 418 "Teapot" "u") none none) ∧
    (make_request 1 "u" (fun _ => ⟨.response 301 .null "" none "Moved", 0⟩)).result
      = .error (.sentryAPIError
          ("Failed to make request after " ++ toString (1 + 1) ++ " attempts")
          none none) :=
  ⟨((generic_error_amended 0 418 "u" "teapot" "Teapot" .null none 0).1
      (by decide) (by decide) (by decide) (by decide) (by decide) (by decide)).1,
   (generic_error_amended 1 301 "u" "" "Moved" .null none 0).2 (by omega)⟩

/-! ### C7: timestamp updates per attempt -/

/-- The values stored into `last_request_time` are exactly the `t1` times of
the attempts whose `session.get` returned a response: line 115 runs after
the call, so an attempt that raises (timeout, connection error, any other
request exception) stores nothing. -/
theorem makeRequestGo_timestamps (r : Nat) (url : String) (env : Nat → AttemptEnv) :
    ∀ fuel i,
      (makeRequestGo r url env fuel i).timestamps =
        ((List.range' i (makeRequestGo r url env fuel i).attempts).filter
          (fun j => (env j).outcome.isResponse)).map (fun j => (env j).t1) := by
  intro fuel
  induction fuel with
  | zero => intro i; rfl
  | succ f ih =>
      intro i
      rw [makeRequestGo.eq_2]
      rcases ho : (env i).outcome with ⟨st, body, text, ra, reason⟩ | _ | _ | msg
      · simp only [ho]
        split_ifs with c1 c2 c3 c4 c5 c6 <;>
          simp [recordResponse, pureResult, ih, List.range'_succ, ho,
            Outcome.isResponse]
      · simp only [ho]
        split_ifs with c1 <;>
          simp [recordNoResponse, pureResult, ih, List.range'_succ, ho,
            Outcome.isResponse]
      · simp only [ho]
        split_ifs with c1 <;>
          simp [recordNoResponse, pureResult, ih, List.range'_succ, ho,
            Outcome.isResponse]
      · simp only [ho]
        simp [recordNoResponse, pureResult, List.range'_succ, ho,
          Outcome.isResponse]

/-- C7 counterexample: a single attempt ending in a timeout leaves the
rate-limiter's `last_request_time` untouched — the attempt count is 1 but no
timestamp was stored, refuting "updated on every attempt, whether the
attempt succeeds or fails". -/
theorem timestamp_counterexample :
    (make_request 0 "u" (fun _ => ⟨.timeout, 7⟩)).attempts = 1 ∧
    (make_request 0 "u" (fun _ => ⟨.timeout, 7⟩)).timestamps = [] ∧
    (make_request 0 "u" (fun _ => ⟨.timeout, 7⟩)).timestamps.length
      ≠ (make_request 0 "u" (fun _ => ⟨.timeout, 7⟩)).attempts :=
  ⟨rfl, rfl, by decide⟩

/-- C7 amended: on every attempt whose `session.get` returns an HTTP
response — of any status, successful or not — the rate-limiter's
`last_request_time` is updated with that attempt's clock value; attempts
that end in a timeout, connection error or other request exception leave it
unchanged.  `last_request_time` is the only mutable executor state the
request loop touches. -/
theorem timestamp_updates_on_responses (r : Nat) (url : String) (env : Nat → AttemptEnv) :
    (make_request r url env).timestamps =
      ((List.range (make_request r url env).attempts).filter
        (fun j => (env j).outcome.isResponse)).map (fun j => (env j).t1) := by
  have h := makeRequestGo_timestamps r url env (r + 1) 0
  simpa [make_request, List.range_eq_range'] using h

/-! ### C10: missing id/slug/name keys -/

theorem except_bind_ok {α β : Type} (a : α) (f : α → Except PyError β) :
    (Except.ok a >>= f) = f a := rfl

theorem except_bind_err {α β : Type} (e : PyError) (f : α → Except PyError β) :
    (Except.error e >>= f : Except PyError β) = Except.error e := rfl

theorem dictGet?_eq_none_of_hasKey_false {d : Dict} {k : String}
    (h : hasKey d k = false) : dictGet? d k = none := by
  induction d with
  | nil => rfl
  | cons p d ih =>
      by_cases hp : p.1 = k
      · simp [hasKey, hp] at h
      · simp only [hasKey, if_neg hp] at h
        simp [dictGet?, hp, ih h]

theorem dictGet?_isSome_of_hasKey {d : Dict} {k : String}
    (h : hasKey d k = true) : ∃ x, dictGet? d k = some x := by
  induction d with
  | nil => simp [hasKey] at h
  | cons p d ih =>
      by_cases hp : p.1 = k
      · exact ⟨p.2, by simp [dictGet?, hp]⟩
      · simp only [hasKey, if_neg hp] at h
        obtain ⟨x, hx⟩ := ih h
        exact ⟨x, by simp [dictGet?, hp, hx]⟩

/-- The mandatory keys of the spec's raw-payload invariant. -/
def coreKeys : List String := ["id", "slug", "name"]

/-- Whether a payload object lacks one of the mandatory keys. -/
def lacksCore (v : JsonV) : Bool :=
  !hasKey v.objEntries "id" || !hasKey v.objEntries "slug" || !hasKey v.objEntries "name"

theorem mkOrganization_err_id {d : Dict} (h : hasKey d "id" = false) :
    mkOrganization (.obj d) = .error (.keyError "id") := by
  simp [mkOrganization, pyIndex, dictGet?_eq_none_of_hasKey_false h, except_bind_err]

theorem mkOrganization_err_slug {d : Dict} (hid : hasKey d "id" = true)
    (h : hasKey d "slug" = false) :
    mkOrganization (.obj d) = .error (.keyError "slug") := by
  obtain ⟨x1, h1⟩ := dictGet?_isSome_of_hasKey hid
  simp [mkOrganization, pyIndex, h1, dictGet?_eq_none_of_hasKey_false h,
    except_bind_ok, except_bind_err]

theorem mkOrganization_err_name {d : Dict} (hid : hasKey d "id" = true)
    (hslug : hasKey d "slug" = true) (h : hasKey d "name" = false) :
    mkOrganization (.obj d) = .error (.keyError "name") := by
  obtain ⟨x1, h1⟩ := dictGet?_isSome_of_hasKey hid
  obtain ⟨x2, h2⟩ := dictGet?_isSome_of_hasKey hslug
  simp [mkOrganization, pyIndex, h1, h2, dictGet?_eq_none_of_hasKey_false h,
    except_bind_ok, except_bind_err]

theorem mkOrganization_ok {d : Dict} (hid : hasKey d "id" = true)
    (hslug : hasKey d "slug" = true) (hname : hasKey d "name" = true) :
    ∃ o, mkOrganization (.obj d) = .ok o := by
  obtain ⟨x1, h1⟩ := dictGet?_isSome_of_hasKey hid
  obtain ⟨x2, h2⟩ := dictGet?_isSome_of_hasKey hslug
  obtain ⟨x3, h3⟩ := dictGet?_isSome_of_hasKey hname
  refine ⟨⟨x1, x2, x3, (dictGet? d "features").getD (.arr []),
    (dictGet? d "status").getD (.obj []), d⟩, ?_⟩
  simp [mkOrganization, pyIndex, pyGet, h1, h2, h3, except_bind_ok,
    JsonV.objEntries]

/-- The organization loop raises a key-lookup error as soon as some element
lacks a mandatory key, every earlier element being complete. -/
theorem orgsGo_keyError : ∀ items : List JsonV,
    items.all JsonV.isObj = true → items.any lacksCore = true →
    ∃ k, k ∈ coreKeys ∧ orgsGo items = .error (.keyError k) := by
  intro items
  induction items with
  | nil => intro _ h; simp at h
  | cons v rest ih =>
      intro hall hany
      rw [List.all_cons, Bool.and_eq_true] at hall
      obtain ⟨hv, hrest⟩ := hall
      rcases v with _ | b | n | s | xs | d <;> simp [JsonV.isObj] at hv
      by_cases hid : hasKey d "id" = true
      · by_cases hslug : hasKey d "slug" = true
        · by_cases hname : hasKey d "name" = true
          · have hlv : lacksCore (.obj d) = false := by
              simp [lacksCore, JsonV.objEntries, hid, hslug, hname]
            rw [List.any_cons, Bool.or_eq_true] at hany
            rcases hany with hany | hany
            · rw [hlv] at hany; exact absurd hany (by simp)
            · obtain ⟨k, hk, herr⟩ := ih hrest hany
              obtain ⟨o, ho⟩ := mkOrganization_ok hid hslug hname
              exact ⟨k, hk, by simp [orgsGo, ho, herr, except_bind_ok, except_bind_err]⟩
          · have h' : hasKey d "name" = false := by simpa using hname
            exact ⟨"name", by simp [coreKeys],
              by simp [orgsGo, mkOrganization_err_name hid hslug h', except_bind_err]⟩
        · have h' : hasKey d "slug" = false := by simpa using hslug
          exact ⟨"slug", by simp [coreKeys],
            by simp [orgsGo, mkOrganization_err_slug hid h', except_bind_err]⟩
      · have h' : hasKey d "id" = false := by simpa using hid
        exact ⟨"id", by simp [coreKeys],
          by simp [orgsGo, mkOrganization_err_id h', except_bind_err]⟩

theorem mkTeam_err_slug (orgSlug : JsonV) (membersOf : JsonV → Except PyError JsonV)
    {d : Dict} (h : hasKey d "slug" = false) :
    mkTeam orgSlug membersOf (.obj d) = .error (.keyError "slug") := by
  simp [mkTeam, pyIndex, dictGet?_eq_none_of_hasKey_false h, except_bind_err]

theorem mkTeam_err_id (orgSlug : JsonV) {membersOf : JsonV → Except PyError JsonV}
    {d : Dict} (hm : ∀ x, ∃ w, membersOf x = .ok w)
    (hslug : hasKey d "slug" = true) (h : hasKey d "id" = false) :
    mkTeam orgSlug membersOf (.obj d) = .error (.keyError "id") := by
  obtain ⟨x2, h2⟩ := dictGet?_isSome_of_hasKey hslug
  obtain ⟨w, hw⟩ := hm x2
  simp [mkTeam, pyIndex, h2, hw, dictGet?_eq_none_of_hasKey_false h,
    except_bind_ok, except_bind_err]

theorem mkTeam_err_name (orgSlug : JsonV) {membersOf : JsonV → Except PyError JsonV}
    {d : Dict} (hm : ∀ x, ∃ w, membersOf x = .ok w)
    (hslug : hasKey d "slug" = true) (hid : hasKey d "id" = true)
    (h : hasKey d "name" = false) :
    mkTeam orgSlug membersOf (.obj d) = .error (.keyError "name") := by
  obtain ⟨x2, h2⟩ := dictGet?_isSome_of_hasKey hslug
  obtain ⟨w, hw⟩ := hm x2
  obtain ⟨x1, h1⟩ := dictGet?_isSome_of_hasKey hid
  simp [mkTeam, pyIndex, h1, h2, hw, dictGet?_eq_none_of_hasKey_false h,
    except_bind_ok, except_bind_err]

theorem mkTeam_ok (orgSlug : JsonV) {membersOf : JsonV → Except PyError JsonV}
    {d : Dict} (hm : ∀ x, ∃ w, membersOf x = .ok w)
    (hid : hasKey d "id" = true) (hslug : hasKey d "slug" = true)
    (hname : hasKey d "name" = true) :
    ∃ t, mkTeam orgSlug membersOf (.obj d) = .ok t := by
  obtain ⟨x1, h1⟩ := dictGet?_isSome_of_hasKey hid
  obtain ⟨x2, h2⟩ := dictGet?_isSome_of_hasKey hslug
  obtain ⟨x3, h3⟩ := dictGet?_isSome_of_hasKey hname
  obtain ⟨w, hw⟩ := hm x2
  refine ⟨⟨x1, x2, x3, orgSlug, w, (dictGet? d "projects").getD (.arr []), d⟩, ?_⟩
  simp [mkTeam, pyIndex, pyGet, h1, h2, h3, hw, except_bind_ok, JsonV.objEntries]

/-- The team loop raises a key-lookup error as soon as some element lacks a
mandatory key, provided the member sub-fetches themselves succeed. -/
theorem teamsGo_keyError (orgSlug : JsonV) {membersOf : JsonV → Except PyError JsonV}
    (hm : ∀ x, ∃ w, membersOf x = .ok w) :
    ∀ items : List JsonV,
    items.all JsonV.isObj = true → items.any lacksCore = true →
    ∃ k, k ∈ coreKeys ∧ teamsGo orgSlug membersOf items = .error (.keyError k) := by
  intro items
  induction items with
  | nil => intro _ h; simp at h
  | cons v rest ih =>
      intro hall hany
      rw [List.all_cons, Bool.and_eq_true] at hall
      obtain ⟨hv, hrest⟩ := hall
      rcases v with _ | b | n | s | xs | d <;> simp [JsonV.isObj] at hv
      by_cases hslug : hasKey d "slug" = true
      · by_cases hid : hasKey d "id" = true
        · by_cases hname : hasKey d "name" = true
          · have hlv : lacksCore (.obj d) = false := by
              simp [lacksCore, JsonV.objEntries, hid, hslug, hname]
            rw [List.any_cons, Bool.or_eq_true] at hany
            rcases hany with hany | hany
            · rw [hlv] at hany; exact absurd hany (by simp)
            · obtain ⟨k, hk, herr⟩ := ih hrest hany
              obtain ⟨t, ht⟩ := mkTeam_ok orgSlug hm hid hslug hname
              exact ⟨k, hk, by simp [teamsGo, ht, herr, except_bind_ok, except_bind_err]⟩
          · have h' : hasKey d "name" = false := by simpa using hname
            exact ⟨"name", by simp [coreKeys],
              by simp [teamsGo, mkTeam_err_name orgSlug hm hslug hid h', except_bind_err]⟩
        · have h' : hasKey d "id" = false := by simpa using hid
          exact ⟨"id", by simp [coreKeys],
            by simp [teamsGo, mkTeam_err_id orgSlug hm hslug h', except_bind_err]⟩
      · have h' : hasKey d "slug" = false := by simpa using hslug
        exact ⟨"slug", by simp [coreKeys],
          by simp [teamsGo, mkTeam_err_slug orgSlug membersOf h', except_bind_err]⟩

theorem mkProject_err_slug (orgSlug : JsonV) (ptf detf : JsonV → Except PyError JsonV)
    {d : Dict} (h : hasKey d "slug" = false) :
    mkProject orgSlug ptf detf (.obj d) = .error (.keyError "slug") := by
  simp [mkProject, pyIndex, dictGet?_eq_none_of_hasKey_false h, except_bind_err]

theorem mkProject_err_id (orgSlug : JsonV) {ptf detf : JsonV → Except PyError JsonV}
    {d : Dict} (hpt : ∀ x, ∃ w, ptf x = .ok w) (hdet : ∀ x, ∃ dd, detf x = .ok (.obj dd))
    (hslug : hasKey d "slug" = true) (h : hasKey d "id" = false) :
    mkProject orgSlug ptf detf (.obj d) = .error (.keyError "id") := by
  obtain ⟨x2, h2⟩ := dictGet?_isSome_of_hasKey hslug
  obtain ⟨w, hw⟩ := hpt x2
  obtain ⟨dd, hd⟩ := hdet x2
  simp [mkProject, pyIndex, h2, hw, hd, dictGet?_eq_none_of_hasKey_false h,
    except_bind_ok, except_bind_err]

theorem mkProject_err_name (orgSlug : JsonV) {ptf detf : JsonV → Except PyError JsonV}
    {d : Dict} (hpt : ∀ x, ∃ w, ptf x = .ok w) (hdet : ∀ x, ∃ dd, detf x = .ok (.obj dd))
    (hslug : hasKey d "slug" = true) (hid : hasKey d "id" = true)
    (h : hasKey d "name" = false) :
    mkProject orgSlug ptf detf (.obj d) = .error (.keyError "name") := by
  obtain ⟨x2, h2⟩ := dictGet?_isSome_of_hasKey hslug
  obtain ⟨w, hw⟩ := hpt x2
  obtain ⟨dd, hd⟩ := hdet x2
  obtain ⟨x1, h1⟩ := dictGet?_isSome_of_hasKey hid
  simp [mkProject, pyIndex, h1, h2, hw, hd, dictGet?_eq_none_of_hasKey_false h,
    except_bind_ok, except_bind_err]

theorem mkProject_ok (orgSlug : JsonV) {ptf detf : JsonV → Except PyError JsonV}
    {d : Dict} (hpt : ∀ x, ∃ w, ptf x = .ok w) (hdet : ∀ x, ∃ dd, detf x = .ok (.obj dd))
    (hid : hasKey d "id" = true) (hslug : hasKey d "slug" = true)
    (hname : hasKey d "name" = true) :
    ∃ p, mkProject orgSlug ptf detf (.obj d) = .ok p := by
  obtain ⟨x1, h1⟩ := dictGet?_isSome_of_hasKey hid
  obtain ⟨x2, h2⟩ := dictGet?_isSome_of_hasKey hslug
  obtain ⟨x3, h3⟩ := dictGet?_isSome_of_hasKey hname
  obtain ⟨w, hw⟩ := hpt x2
  obtain ⟨dd, hd⟩ := hdet x2
  refine ⟨⟨x1, x2, x3, orgSlug, (dictGet? d "platform").getD (.str "other"), w,
    (dictGet? d "status").getD (.str "unknown"),
    (dictGet? d "features").getD (.arr []),
    (dictGet? dd "options").getD (.obj []), dictUnion d dd⟩, ?_⟩
  simp [mkProject, pyIndex, pyGet, h1, h2, h3, hw, hd, except_bind_ok,
    JsonV.objEntries]

/-- The project loop raises a key-lookup error as soon as some element lacks
a mandatory key, provided the team-assignment and detail sub-fetches succeed
with dict details. -/
theorem projectsGo_keyError (orgSlug : JsonV) {ptf detf : JsonV → Except PyError JsonV}
    (hpt : ∀ x, ∃ w, ptf x = .ok w) (hdet : ∀ x, ∃ dd, detf x = .ok (.obj dd)) :
    ∀ items : List JsonV,
    items.all JsonV.isObj = true → items.any lacksCore = true →
    ∃ k, k ∈ coreKeys ∧ projectsGo orgSlug ptf detf items = .error (.keyError k) := by
  intro items
  induction items with
  | nil => intro _ h; simp at h
  | cons v rest ih =>
      intro hall hany
      rw [List.all_cons, Bool.and_eq_true] at hall
      obtain ⟨hv, hrest⟩ := hall
      rcases v with _ | b | n | s | xs | d <;> simp [JsonV.isObj] at hv
      by_cases hslug : hasKey d "slug" = true
      · by_cases hid : hasKey d "id" = true
        · by_cases hname : hasKey d "name" = true
          · have hlv : lacksCore (.obj d) = false := by
              simp [lacksCore, JsonV.objEntries, hid, hslug, hname]
            rw [List.any_cons, Bool.or_eq_true] at hany
            rcases hany with hany | hany
            · rw [hlv] at hany; exact absurd hany (by simp)
            · obtain ⟨k, hk, herr⟩ := ih hrest hany
              obtain ⟨p, hp⟩ := mkProject_ok orgSlug hpt hdet hid hslug hname
              exact ⟨k, hk,
                by simp [projectsGo, hp, herr, except_bind_ok, except_bind_err]⟩
          · have h' : hasKey d "name" = false := by simpa using hname
            exact ⟨"name", by simp [coreKeys],
              by simp [projectsGo, mkProject_err_name orgSlug hpt hdet hslug hid h',
                except_bind_err]⟩
        · have h' : hasKey d "id" = false := by simpa using hid
          exact ⟨"id", by simp [coreKeys],
            by simp [projectsGo, mkProject_err_id orgSlug hpt hdet hslug h',
              except_bind_err]⟩
      · have h' : hasKey d "slug" = false := by simpa using hslug
        exact ⟨"slug", by simp [coreKeys],
          by simp [projectsGo, mkProject_err_slug orgSlug ptf detf h', except_bind_err]⟩

/-- C10: the raw-payload invariant (id, slug, name always present) is an
unchecked precondition of the traversal — whenever a fetched list contains
an element lacking one of these keys, the corresponding fetch operation
raises an unhandled `KeyError` (never a classified `SentryAPIError`, never a
soft-empty list), provided the per-element sub-fetches themselves succeed. -/
theorem missing_core_key_raises :
    (∀ items : List JsonV, items.all JsonV.isObj = true → items.any lacksCore = true →
      ∃ k, k ∈ coreKeys ∧ get_organizations (.arr items) = .error (.keyError k)) ∧
    (∀ (orgSlug : JsonV) (membersOf : JsonV → Except PyError JsonV),
      (∀ x, ∃ w, membersOf x = .ok w) →
      ∀ items : List JsonV, items.all JsonV.isObj = true → items.any lacksCore = true →
      ∃ k, k ∈ coreKeys ∧ get_teams orgSlug membersOf (.arr items)
        = .error (.keyError k)) ∧
    (∀ (orgSlug : JsonV) (ptf detf : JsonV → Except PyError JsonV),
      (∀ x, ∃ w, ptf x = .ok w) → (∀ x, ∃ dd, detf x = .ok (.obj dd)) →
      ∀ items : List JsonV, items.all JsonV.isObj = true → items.any lacksCore = true →
      ∃ k, k ∈ coreKeys ∧ get_projects orgSlug ptf detf (.arr items)
        = .error (.keyError k)) :=
  ⟨fun items h1 h2 => orgsGo_keyError items h1 h2,
   fun orgSlug membersOf hm items h1 h2 => teamsGo_keyError orgSlug hm items h1 h2,
   fun orgSlug ptf detf hpt hdet items h1 h2 =>
     projectsGo_keyError orgSlug hpt hdet items h1 h2⟩

/-- C10 witness: concrete payloads each lacking a mandatory key, with
succeeding sub-fetches; every fetch raises a `KeyError`. -/
theorem missing_core_key_raises_witness :
    (∃ k, k ∈ coreKeys ∧ get_organizations (.arr [.obj [("id", .str "1")]])
        = .error (.keyError k)) ∧
    (∃ k, k ∈ coreKeys ∧ get_teams (.str "o") (fun _ => .ok (.arr []))
        (.arr [.obj [("slug", .str "t")]]) = .error (.keyError k)) ∧
    (∃ k, k ∈ coreKeys ∧ get_projects (.str "o") (fun _ => .ok (.arr []))
        (fun _ => .ok (.obj [])) (.arr [.obj [("slug", .str "p")]])
        = .error (.keyError k)) :=
  ⟨missing_core_key_raises.1 _ (by decide) (by decide),
   missing_core_key_raises.2.1 _ _ (fun x => ⟨.arr [], rfl⟩) _ (by decide) (by decide),
   missing_core_key_raises.2.2 _ _ _ (fun x => ⟨.arr [], rfl⟩)
     (fun x => ⟨[], rfl⟩) _ (by decide) (by decide)⟩

end Sentry
